import Mathlib

/-!
# Verification of the spacebin document retrieval and response pipeline

A shallow embedding of the core of the spacebin paste service:

* `internal/server/fetch.go` — the three retrieval handlers
  (`StaticDocument`, `FetchDocument`, `FetchRawDocument`);
* `internal/util/helpers.go` — body decoding (`HandleBody`), field
  validation (`ValidateBody`), and the three error/response writers
  (`WriteJSON`, `WriteError`, `RenderError`).

Go strings are modelled as `List Char`, one `Char` standing for one byte
(`len` in Go counts bytes, as does ozzo-validation's `Length` rule).
The HTTP response writer is modelled as an explicit state (`RW`) that
records the Content-Type header, the status code, and the sequence of
body writes.  External collaborators — the database, the Markdown
renderer, the syntax highlighter, the HTML template engine, the JSON
encoder — are parameters of the handler functions; each handler returns,
besides the final writer state, the trace of identifiers it passed to the
database and (for the HTML handler) the arguments it passed to the
syntax highlighter, so that "the handler does not call the accessor" is
a statement about the model, not about its absence from the text.
-/

/-- Go byte strings, one `Char` per byte. -/
abbrev GoStr := List Char

/-- A Lean string literal viewed as a `GoStr`. -/
def gs (s : String) : GoStr := s.data

/-- Go `strings.Split(s, sep)` for a one-byte separator: splits at every
occurrence of `sep`; the result is never empty, and `goSplit sep [] = [[]]`
just as `strings.Split("", sep) = [""]`. -/
def goSplit (sep : Char) : GoStr → List GoStr
  | [] => [[]]
  | c :: rest =>
    match goSplit sep rest with
    | [] => [[c]]
    | h :: t => if c = sep then [] :: h :: t else (c :: h) :: t

/-- JSON values, as produced by `encoding/json`. -/
inductive Json
  | str (s : GoStr)
  | num (n : Int)
  | bool (b : Bool)
  | null
  | arr (xs : List Json)
  | obj (fields : List (GoStr × Json))

/-- Server configuration: `IDLength`, the reserved-identifier list
`Documents`, and the `Analytics` snippet (config package). -/
structure Config where
  idLength : Nat
  documents : List GoStr
  analytics : GoStr

/-- Modelled from the spec: the stored document record returned by the
database package (`database.Document` is not part of the sources under
verification; §3 of the spec gives its fields: identifier, content and
the two Unix timestamps). -/
structure Document where
  id : GoStr
  content : GoStr
  createdAt : Int
  updatedAt : Int

/-- Errors returned by the document accessor: either Go's
`sql.ErrNoRows` (the storage not-found signal) or any other error,
carrying its message. -/
inductive DbError
  | noRows
  | other (msg : GoStr)
deriving DecidableEq

/-- The message of a database error; `sql.ErrNoRows.Error()` is the
fixed string below. -/
def DbError.message : DbError → GoStr
  | .noRows => gs "sql: no rows in result set"
  | .other m => m

/-- The document accessor (`s.Database.GetDocument` via `getDocument`):
a pure map from identifiers to a document or an error. -/
abbrev Db := GoStr → Except DbError Document

/-- One write to the response body.  `jsonVal v` records that
`json.NewEncoder(w).Encode` was invoked on the value `v` (its output is
the serialization of `v`); the template-rendering chunks record the
template that was executed together with the data passed to it. -/
inductive Chunk
  | bytes (s : GoStr)
  | jsonVal (v : Json)
  | errorPage (statusLine : GoStr) (msg : GoStr)
  | readerPage (contentHtml : GoStr) (analytics : GoStr)
  | docPage (css : GoStr) (content : GoStr) (highlighted : GoStr)
      (extension : GoStr) (analytics : GoStr)

/-- The state of an `http.ResponseWriter`: the Content-Type header, the
status code once written (`none` before `WriteHeader`), and the body
chunks in order. -/
structure RW where
  contentType : GoStr
  status : Option Nat
  chunks : List Chunk

/-- A fresh response writer, before the handler has touched it. -/
def RW.init : RW := ⟨[], none, []⟩

/-- `w.WriteHeader(s)`: sets the status; a second call is ignored, as in
net/http. -/
def RW.writeHeader (w : RW) (s : Nat) : RW :=
  match w.status with
  | none => { w with status := some s }
  | some _ => w

/-- `w.Header().Set("Content-Type", v)`: effective only before the
header has been written, as in net/http. -/
def RW.setContentType (w : RW) (v : GoStr) : RW :=
  match w.status with
  | none => { w with contentType := v }
  | some _ => w

/-- A body write; the first write implies `WriteHeader(200)`. -/
def RW.write (w : RW) (c : Chunk) : RW :=
  let w := w.writeHeader 200
  { w with chunks := w.chunks ++ [c] }

/-- The status code the client observes (200 when never written
explicitly). -/
def RW.statusCode (w : RW) : Nat := w.status.getD 200

/-- `http.StatusText` for the codes this core uses. -/
def statusText (s : Nat) : GoStr :=
  if s = 400 then gs "Bad Request"
  else if s = 404 then gs "Not Found"
  else if s = 500 then gs "Internal Server Error"
  else if s = 200 then gs "OK"
  else []

/-- Decimal digits of a natural number, as Go `fmt.Sprintf("%d", s)`. -/
def natDigits (n : Nat) : GoStr := (toString n).data

/-- The JSON success envelope built by `WriteJSON`:
`{"payload": p, "error": ""}`. -/
def successEnvelope (p : Json) : Json :=
  Json.obj [(gs "payload", p), (gs "error", Json.str [])]

/-- The JSON error envelope built by `WriteError`:
`{"payload": {}, "error": msg}`. -/
def errorEnvelope (msg : GoStr) : Json :=
  Json.obj [(gs "payload", Json.obj []), (gs "error", Json.str msg)]

/-- `util.WriteJSON`: sets Content-Type `application/json`, writes the
status, and encodes the success envelope.  `encFails` abstracts the
JSON encoder failing (`json.NewEncoder(w).Encode` returning a non-nil
error, e.g. on a write error); the Go code discards that error and
returns `nil` unconditionally, which the second component records
(`none` = nil). -/
def WriteJSON (encFails : Json → Bool) (w : RW) (status : Nat)
    (payload : Json) : RW × Option GoStr :=
  let w := w.setContentType (gs "application/json")
  let w := w.writeHeader status
  let v := successEnvelope payload
  let w := w.write (.jsonVal v)
  let _ := encFails v
  (w, none)

/-- `util.WriteError`: sets Content-Type `application/json`, writes the
status, and encodes the error envelope (its payload is a map of strings,
which `encoding/json` always serializes); returns nil. -/
def WriteError (w : RW) (status : Nat) (msg : GoStr) : RW × Option GoStr :=
  let w := w.setContentType (gs "application/json")
  let w := w.writeHeader status
  (w.write (.jsonVal (errorEnvelope msg)), none)

/-- `util.RenderError`: renders `web/error.html` with the
`"<status> <status text>"` line and the error message, as text/html with
the given status. -/
def RenderError (w : RW) (status : Nat) (msg : GoStr) : RW :=
  let w := w.setContentType (gs "text/html")
  let w := w.writeHeader status
  w.write (.errorPage (natDigits status ++ [' '] ++ statusText status) msg)

/-- The identifier-validation failure condition shared verbatim by the
three handlers:
`len(id) != s.Config.IDLength && !slices.Contains(s.Config.Documents, id)`. -/
def idInvalid (cfg : Config) (id : GoStr) : Bool :=
  id.length != cfg.idLength && !(cfg.documents.contains id)

/-- The 400 message `fmt.Errorf("id is of length %d, should be %d", ...)`. -/
def lengthErrMsg (cfg : Config) (id : GoStr) : GoStr :=
  gs "id is of length " ++ natDigits id.length ++ gs ", should be "
    ++ natDigits cfg.idLength

/-- An identifier passes validation iff its length is the configured one
or it is reserved (the propositional reading of `¬ idInvalid`). -/
def validId (cfg : Config) (id : GoStr) : Prop :=
  id.length = cfg.idLength ∨ id ∈ cfg.documents

instance (cfg : Config) (id : GoStr) : Decidable (validId cfg id) := by
  unfold validId; infer_instance

/-- Modelled from the spec: JSON serialization of a stored document with
omitempty semantics (absent/zero fields dropped from the output), per §6
of the spec; the database package carrying the struct tags is not among
the sources under verification.  No claim depends on its exact shape. -/
def docJson (d : Document) : Json :=
  Json.obj
    ((if d.id = [] then [] else [(gs "id", Json.str d.id)]) ++
     (if d.content = [] then [] else [(gs "content", Json.str d.content)]) ++
     (if d.createdAt = 0 then [] else [(gs "created_at", Json.num d.createdAt)]) ++
     (if d.updatedAt = 0 then [] else [(gs "updated_at", Json.num d.updatedAt)]))

/-- Result of a JSON/raw handler: the final writer state and the trace
of identifiers passed to the document accessor. -/
structure FetchOut where
  w : RW
  dbCalls : List GoStr

/-- `server.FetchDocument` (the `/api/{document}` route): validate the
identifier, fetch, and respond with the JSON envelope; `encFails` is the
abstracted JSON-encoder failure passed through to `WriteJSON`. -/
def FetchDocument (cfg : Config) (db : Db) (encFails : Json → Bool)
    (param : GoStr) (w : RW) : FetchOut :=
  let id := param
  if idInvalid cfg id then
    ⟨(WriteError w 400 (lengthErrMsg cfg id)).1, []⟩
  else
    match db id with
    | .error .noRows => ⟨(WriteError w 404 DbError.noRows.message).1, [id]⟩
    | .error (.other m) => ⟨(WriteError w 500 m).1, [id]⟩
    | .ok doc =>
      let res := WriteJSON encFails w 200 (docJson doc)
      match res.2 with
      | some m => ⟨(WriteError res.1 500 m).1, [id]⟩
      | none => ⟨res.1, [id]⟩

/-- `server.FetchRawDocument` (the `/raw/{document}` route): validate
the identifier, fetch, set Content-Type `text/plain`, and write either
the document content or a one-line diagnostic. -/
def FetchRawDocument (cfg : Config) (db : Db) (param : GoStr)
    (w : RW) : FetchOut :=
  let id := param
  if idInvalid cfg id then
    ⟨(WriteError w 400 (lengthErrMsg cfg id)).1, []⟩
  else
    let res := db id
    let w := w.setContentType (gs "text/plain")
    match res with
    | .error .noRows =>
      let w := w.writeHeader 404
      ⟨w.write (.bytes (gs "Document with ID " ++ id ++ gs " not found: "
        ++ DbError.noRows.message)), [id]⟩
    | .error (.other m) =>
      let w := w.writeHeader 500
      ⟨w.write (.bytes (gs "Error fetching document with ID " ++ id
        ++ gs ": " ++ m)), [id]⟩
    | .ok doc =>
      let w := w.writeHeader 200
      ⟨w.write (.bytes doc.content), [id]⟩

/-- The external collaborators of the HTML handler: the two parsed
templates (`ParseFS` results), the Markdown renderer, the syntax
highlighter, and whether `template.Execute` succeeds. -/
structure Collab where
  readerTpl : Except GoStr Unit
  docTpl : Except GoStr Unit
  markdown : GoStr → GoStr
  highlight : GoStr → GoStr → Except GoStr (GoStr × GoStr)
  execOk : Bool

/-- Result of the HTML handler: writer state, accessor trace, and the
trace of `(content, extension)` arguments passed to the highlighter. -/
structure StaticOut where
  w : RW
  dbCalls : List GoStr
  highlightCalls : List (GoStr × GoStr)

/-- `params[0]` of `params := strings.Split(chi.URLParam(r, "document"), ".")`:
the text before the first dot (the whole parameter when it has no dot).
`strings.Split` never returns an empty slice, so the indexing is safe. -/
def firstSegment (p : GoStr) : GoStr := (goSplit '.' p).headD []

/-- Lines 93–97 of fetch.go: the extension hint is `params[1]` when the
dot-split of the URL parameter has exactly two parts, and the empty
string otherwise. -/
def extensionOf (p : GoStr) : GoStr :=
  let params := goSplit '.' p
  if params.length = 2 then params.getD 1 [] else []

/-- `server.StaticDocument` (the `/{document}` HTML route): split the
URL parameter at every dot, use the first segment as the identifier,
validate, fetch, and render reader mode (`?reader=true`) or code mode. -/
def StaticDocument (cfg : Config) (db : Db) (col : Collab)
    (param : GoStr) (reader : Bool) (w : RW) : StaticOut :=
  let id := firstSegment param
  if idInvalid cfg id then
    ⟨RenderError w 400 (lengthErrMsg cfg id), [], []⟩
  else
    match db id with
    | .error .noRows => ⟨RenderError w 404 DbError.noRows.message, [id], []⟩
    | .error (.other m) => ⟨RenderError w 500 m, [id], []⟩
    | .ok doc =>
      if reader then
        match col.readerTpl with
        | .error m => ⟨RenderError w 500 m, [id], []⟩
        | .ok _ =>
          let content := col.markdown doc.content
          if col.execOk then
            ⟨w.write (.readerPage content cfg.analytics), [id], []⟩
          else
            ⟨RenderError w 500 (gs "template execution error"), [id], []⟩
      else
        match col.docTpl with
        | .error m => ⟨RenderError w 500 m, [id], []⟩
        | .ok _ =>
          let extension := extensionOf param
          match col.highlight doc.content extension with
          | .error m =>
            ⟨RenderError w 500 m, [id], [(doc.content, extension)]⟩
          | .ok (hl, css) =>
            if col.execOk then
              ⟨w.write (.docPage css doc.content hl extension cfg.analytics),
                [id], [(doc.content, extension)]⟩
            else
              ⟨RenderError w 500 (gs "template execution error"), [id],
                [(doc.content, extension)]⟩

/-- A create request body (`util.CreateRequest`). -/
structure CreateRequest where
  content : GoStr
deriving DecidableEq

/-- A sign-in request body (`util.SigninRequest`). -/
structure SigninRequest where
  username : GoStr
  password : GoStr
deriving DecidableEq

/-- A sign-up request body (`util.SignupRequest`). -/
structure SignupRequest where
  username : GoStr
  password : GoStr
deriving DecidableEq

/-- Failure of `json.NewDecoder(r.Body).Decode(&resp)` decoding into a
`map[string]string`: the body is not well-formed JSON, or some value is
not a string (or the top level is not an object). -/
inductive DecodeErr
  | malformed
  | typeMismatch
deriving DecidableEq

/-- Decoding the fields of a JSON object into string-to-string pairs:
Go's decoder takes string values as-is, accepts a JSON null with no
error (unmarshaling null into a string has no effect, so the entry is
stored with the zero string), and fails on any other value without
coercion. -/
def decodeFields : List (GoStr × Json) → Except DecodeErr (List (GoStr × GoStr))
  | [] => .ok []
  | (k, Json.str v) :: rest => (decodeFields rest).map (fun m => (k, v) :: m)
  | (k, Json.null) :: rest => (decodeFields rest).map (fun m => (k, []) :: m)
  | _ :: _ => .error .typeMismatch

/-- Decoding a JSON value into a `map[string]string`: the top level must
be an object — except that a top-level JSON null is also accepted
(`Decode` of `null` into a map pointer sets the map to nil with no
error, and lookups on a nil map yield zero values, so it behaves as the
empty map); everything else is a type mismatch. -/
def decodeStringMap : Json → Except DecodeErr (List (GoStr × GoStr))
  | .obj fields => decodeFields fields
  | .null => .ok []
  | _ => .error .typeMismatch

/-- Go map indexing `m[k]` on a decoded JSON object: a duplicated key is
overwritten in order, so the last occurrence wins; a missing key yields
the zero value, the empty string. -/
def mapGet (m : List (GoStr × GoStr)) (k : GoStr) : GoStr :=
  match m.reverse.find? (fun p => p.1 = k) with
  | some p => p.2
  | none => []

/-- An error returned by `HandleBody`: a JSON decode error or a
multipart-form parse error. -/
inductive BodyErr
  | decode (e : DecodeErr)
  | multipart (msg : GoStr)
deriving DecidableEq

/-- An incoming create request as `HandleBody` observes it: the
Content-Type header, the body bytes parsed as JSON (`none` when they are
not well-formed JSON), and the outcome of multipart-form parsing with
the `content` form value (`ParseMultipartForm`'s memory bound of
`maxSize` megabytes is abstracted into `formErr`). -/
structure Request where
  contentType : GoStr
  jsonBody : Option Json
  formContent : GoStr
  formErr : Option GoStr

/-- `util.HandleBody`: dispatch on the first `;`-separated token of the
Content-Type header; JSON bodies decode as a flat string map whose
`content` entry becomes the request, multipart bodies read the `content`
form value, and anything else yields the zero request with no error.
Mirrors Go's `(CreateRequest, error)` pair: the first component is the
zero value whenever the second is non-nil. -/
def HandleBody (maxSize : Nat) (r : Request) : CreateRequest × Option BodyErr :=
  let token := (goSplit ';' r.contentType).headD []
  if token = gs "application/json" then
    match r.jsonBody with
    | none => (⟨[]⟩, some (.decode .malformed))
    | some j =>
      match decodeStringMap j with
      | .error e => (⟨[]⟩, some (.decode e))
      | .ok m => (⟨mapGet m (gs "content")⟩, none)
  else if token = gs "multipart/form-data" then
    match r.formErr with
    | some m => (⟨[]⟩, some (.multipart m))
    | none => (⟨r.formContent⟩, none)
  else
    (⟨[]⟩, none)
where _unused := maxSize

/-- The three request variants `util.ValidateBody` dispatches over. -/
inductive RequestBody
  | create (r : CreateRequest)
  | signin (r : SigninRequest)
  | signup (r : SignupRequest)

/-- One string field under ozzo-validation rules `Required` followed by
an optional `Length(lo, hi)`: an empty value fails `Required` (and the
length rule, which skips empty values, is not reached); a non-empty
value fails when its byte length lies outside `[lo, hi]`.  Returns the
field's violations. -/
def fieldErrors (name : GoStr) (value : GoStr) (bounds : Option (Nat × Nat)) :
    List (GoStr × GoStr) :=
  if value = [] then [(name, gs "cannot be blank")]
  else
    match bounds with
    | none => []
    | some (lo, hi) =>
      if value.length < lo ∨ hi < value.length then
        [(name, gs "the length must be between " ++ natDigits lo
          ++ gs " and " ++ natDigits hi)]
      else []

/-- `util.ValidateBody`: per-variant field rules; the result is the
aggregate list of violations, and validation succeeds iff it is empty
(ozzo's `ValidateStruct` returns a nil error exactly then). -/
def ValidateBody (maxSize : Nat) : RequestBody → List (GoStr × GoStr)
  | .create r => fieldErrors (gs "Content") r.content (some (2, maxSize))
  | .signin r =>
      fieldErrors (gs "Username") r.username none ++
      fieldErrors (gs "Password") r.password (some (16, 128))
  | .signup r =>
      fieldErrors (gs "Username") r.username none ++
      fieldErrors (gs "Password") r.password (some (16, 128))

/-! ## Test fixtures shared by concrete witnesses -/

/-- A sample configuration: identifier length 6 and one reserved id. -/
def cfgT : Config := ⟨6, [gs "about"], gs "analytics"⟩

/-- A sample stored document. -/
def docT : Document := ⟨gs "abcdef", gs "hello world", 1700000000, 1700000001⟩

/-- A sample database holding exactly `docT` under id `abcdef`. -/
def dbT : Db := fun id => if id = gs "abcdef" then .ok docT else .error .noRows

/-- A database whose every lookup fails with a non-not-found error. -/
def dbErrT : Db := fun _ => .error (.other (gs "connection refused"))

/-- Sample collaborators: both templates parse, Markdown is identity,
highlighting succeeds, template execution succeeds. -/
def colT : Collab :=
  ⟨.ok (), .ok (), fun c => c, fun c e => .ok (c ++ e, gs "css"), true⟩

/-! ## Basic lemmas about the embedding -/

/-- The shared Go guard fails to fire exactly on valid identifiers. -/
theorem idInvalid_false_iff (cfg : Config) (id : GoStr) :
    idInvalid cfg id = false ↔ validId cfg id := by
  unfold idInvalid validId
  cases hl : (id.length != cfg.idLength) <;>
    cases hc : cfg.documents.contains id <;>
      simp_all [List.contains, List.elem_iff, bne_iff_ne]

/-- `WriteError` on a fresh writer responds with the given status. -/
theorem writeError_statusCode (s : Nat) (m : GoStr) :
    ((WriteError RW.init s m).1).statusCode = s := rfl

/-- `RenderError` on a fresh writer responds with the given status. -/
theorem renderError_statusCode (s : Nat) (m : GoStr) :
    (RenderError RW.init s m).statusCode = s := rfl

/-- `FetchDocument` calls the accessor exactly on the validated id. -/
theorem fetchDocument_dbCalls (cfg : Config) (db : Db) (e : Json → Bool)
    (p : GoStr) :
    (FetchDocument cfg db e p RW.init).dbCalls
      = if idInvalid cfg p then [] else [p] := by
  unfold FetchDocument
  cases h : idInvalid cfg p
  · simp only [h, Bool.false_eq_true, if_false]
    cases hdb : db p with
    | error err => cases err <;> simp
    | ok doc => simp [WriteJSON]
  · simp [h]

/-- `FetchRawDocument` calls the accessor exactly on the validated id. -/
theorem fetchRawDocument_dbCalls (cfg : Config) (db : Db) (p : GoStr) :
    (FetchRawDocument cfg db p RW.init).dbCalls
      = if idInvalid cfg p then [] else [p] := by
  unfold FetchRawDocument
  cases h : idInvalid cfg p
  · simp only [h, Bool.false_eq_true, if_false]
    cases hdb : db p with
    | error err => cases err <;> simp
    | ok doc => simp
  · simp [h]

/-- `StaticDocument` calls the accessor exactly on the validated first
dot-segment of the URL parameter. -/
theorem staticDocument_dbCalls (cfg : Config) (db : Db) (col : Collab)
    (p : GoStr) (reader : Bool) :
    (StaticDocument cfg db col p reader RW.init).dbCalls
      = if idInvalid cfg (firstSegment p) then [] else [firstSegment p] := by
  unfold StaticDocument
  cases h : idInvalid cfg (firstSegment p)
  · simp only [h, Bool.false_eq_true, if_false]
    cases hdb : db (firstSegment p) with
    | error err => cases err <;> simp
    | ok doc =>
      cases reader
      · cases col.docTpl with
        | error m => simp
        | ok u =>
          cases hhl : col.highlight doc.content (extensionOf p) <;>
            cases col.execOk <;> simp [hhl]
      · cases col.readerTpl with
        | error m => simp
        | ok u => cases col.execOk <;> simp
  · simp [h]

/-- `FetchDocument` answers 400 when validation fails. -/
theorem fetchDocument_invalid_status (cfg : Config) (db : Db)
    (e : Json → Bool) (p : GoStr) (h : idInvalid cfg p = true) :
    (FetchDocument cfg db e p RW.init).w.statusCode = 400 := by
  simp only [FetchDocument, h]
  rfl

/-- `FetchRawDocument` answers 400 when validation fails. -/
theorem fetchRawDocument_invalid_status (cfg : Config) (db : Db)
    (p : GoStr) (h : idInvalid cfg p = true) :
    (FetchRawDocument cfg db p RW.init).w.statusCode = 400 := by
  simp only [FetchRawDocument, h]
  rfl

/-- `StaticDocument` answers 400 when validation fails. -/
theorem staticDocument_invalid_status (cfg : Config) (db : Db) (col : Collab)
    (p : GoStr) (reader : Bool) (h : idInvalid cfg (firstSegment p) = true) :
    (StaticDocument cfg db col p reader RW.init).w.statusCode = 400 := by
  simp only [StaticDocument, h]
  rfl

/-- `FetchDocument` maps a storage error to 404 or 500 by the
not-found test alone. -/
theorem fetchDocument_error_status (cfg : Config) (db : Db)
    (e : Json → Bool) (p : GoStr) (err : DbError)
    (h : idInvalid cfg p = false) (hdb : db p = .error err) :
    (FetchDocument cfg db e p RW.init).w.statusCode
      = if err = .noRows then 404 else 500 := by
  cases err <;> simp only [FetchDocument, h, hdb] <;> rfl

/-- `FetchRawDocument` maps a storage error to 404 or 500 by the
not-found test alone. -/
theorem fetchRawDocument_error_status (cfg : Config) (db : Db)
    (p : GoStr) (err : DbError)
    (h : idInvalid cfg p = false) (hdb : db p = .error err) :
    (FetchRawDocument cfg db p RW.init).w.statusCode
      = if err = .noRows then 404 else 500 := by
  cases err <;> simp only [FetchRawDocument, h, hdb] <;> rfl

/-- `StaticDocument` maps a storage error to 404 or 500 by the
not-found test alone. -/
theorem staticDocument_error_status (cfg : Config) (db : Db) (col : Collab)
    (p : GoStr) (reader : Bool) (err : DbError)
    (h : idInvalid cfg (firstSegment p) = false)
    (hdb : db (firstSegment p) = .error err) :
    (StaticDocument cfg db col p reader RW.init).w.statusCode
      = if err = .noRows then 404 else 500 := by
  cases err <;> simp only [StaticDocument, h, hdb] <;> rfl

/-- Validity failure in propositional form forces the Go guard to fire. -/
theorem idInvalid_true_of_not_valid (cfg : Config) (id : GoStr)
    (h : ¬ validId cfg id) : idInvalid cfg id = true := by
  cases hb : idInvalid cfg id
  · exact absurd ((idInvalid_false_iff cfg id).1 hb) h
  · rfl

/-- C1: identifier validation succeeds exactly when the id has the
configured length or is a reserved identifier; on failure each of the
three retrieval handlers responds 400 without calling the document
accessor, and on success each proceeds to exactly one accessor call —
the same rule in the HTML, JSON and raw handlers (on the HTML route the
identifier is the first dot-segment of the URL parameter). -/
theorem c1_identifier_validation (cfg : Config) (db : Db) (col : Collab)
    (encFails : Json → Bool) (param : GoStr) (reader : Bool) :
    (¬ validId cfg param →
        (FetchDocument cfg db encFails param RW.init).w.statusCode = 400 ∧
        (FetchDocument cfg db encFails param RW.init).dbCalls = [] ∧
        (FetchRawDocument cfg db param RW.init).w.statusCode = 400 ∧
        (FetchRawDocument cfg db param RW.init).dbCalls = []) ∧
    (validId cfg param →
        (FetchDocument cfg db encFails param RW.init).dbCalls = [param] ∧
        (FetchRawDocument cfg db param RW.init).dbCalls = [param]) ∧
    (¬ validId cfg (firstSegment param) →
        (StaticDocument cfg db col param reader RW.init).w.statusCode = 400 ∧
        (StaticDocument cfg db col param reader RW.init).dbCalls = []) ∧
    (validId cfg (firstSegment param) →
        (StaticDocument cfg db col param reader RW.init).dbCalls
          = [firstSegment param]) := by
  refine ⟨?_, ?_, ?_, ?_⟩
  · intro h
    have hb := idInvalid_true_of_not_valid cfg param h
    exact ⟨fetchDocument_invalid_status cfg db encFails param hb,
      by rw [fetchDocument_dbCalls, hb]; rfl,
      fetchRawDocument_invalid_status cfg db param hb,
      by rw [fetchRawDocument_dbCalls, hb]; rfl⟩
  · intro h
    have hb := (idInvalid_false_iff cfg param).2 h
    exact ⟨by rw [fetchDocument_dbCalls, hb]; rfl,
      by rw [fetchRawDocument_dbCalls, hb]; rfl⟩
  · intro h
    have hb := idInvalid_true_of_not_valid cfg (firstSegment param) h
    exact ⟨staticDocument_invalid_status cfg db col param reader hb,
      by rw [staticDocument_dbCalls, hb]; rfl⟩
  · intro h
    have hb := (idInvalid_false_iff cfg (firstSegment param)).2 h
    rw [staticDocument_dbCalls, hb]
    rfl

/-- Witness for C1: with `IDLength = 6` and reserved list `[about]`,
the id `abc` is rejected with 400 and no lookup on the JSON and raw
routes, while `abcdef` (length 6) and the reserved `about` (HTML route)
reach the accessor exactly once. -/
theorem c1_identifier_validation_witness :
    ((FetchDocument cfgT dbT (fun _ => false) (gs "abc") RW.init).w.statusCode = 400 ∧
     (FetchDocument cfgT dbT (fun _ => false) (gs "abc") RW.init).dbCalls = [] ∧
     (FetchRawDocument cfgT dbT (gs "abc") RW.init).w.statusCode = 400 ∧
     (FetchRawDocument cfgT dbT (gs "abc") RW.init).dbCalls = []) ∧
    ((FetchDocument cfgT dbT (fun _ => false) (gs "abcdef") RW.init).dbCalls
        = [gs "abcdef"] ∧
     (FetchRawDocument cfgT dbT (gs "abcdef") RW.init).dbCalls = [gs "abcdef"]) ∧
    (StaticDocument cfgT dbT colT (gs "about") false RW.init).dbCalls
        = [gs "about"] :=
  ⟨(c1_identifier_validation cfgT dbT colT (fun _ => false) (gs "abc") false).1
      (by decide),
   (c1_identifier_validation cfgT dbT colT (fun _ => false) (gs "abcdef") false).2.1
      (by decide),
   (c1_identifier_validation cfgT dbT colT (fun _ => false) (gs "about") false).2.2.2
      (by decide)⟩

/-- C2: once validation passes, every handler answers 404 exactly when
the accessor reports the storage not-found signal and 500 on any other
storage error; the status is a function of the binary not-found test
only, uniformly across the HTML, JSON and raw handlers. -/
theorem c2_storage_error_mapping (cfg : Config) (db : Db) (col : Collab)
    (encFails : Json → Bool) (param : GoStr) (reader : Bool) (err : DbError) :
    (validId cfg param → db param = .error err →
        (FetchDocument cfg db encFails param RW.init).w.statusCode
            = (if err = .noRows then 404 else 500) ∧
        (FetchRawDocument cfg db param RW.init).w.statusCode
            = (if err = .noRows then 404 else 500)) ∧
    (validId cfg (firstSegment param) →
        db (firstSegment param) = .error err →
        (StaticDocument cfg db col param reader RW.init).w.statusCode
            = if err = .noRows then 404 else 500) := by
  constructor
  · intro hv hdb
    have hb := (idInvalid_false_iff cfg param).2 hv
    exact ⟨fetchDocument_error_status cfg db encFails param err hb hdb,
      fetchRawDocument_error_status cfg db param err hb hdb⟩
  · intro hv hdb
    have hb := (idInvalid_false_iff cfg (firstSegment param)).2 hv
    exact staticDocument_error_status cfg db col param reader err hb hdb

/-- Witness for C2: a missing document (`uvwxyz` not stored) yields 404
on the JSON, raw and HTML routes, and a connection error yields 500 on
the JSON route. -/
theorem c2_storage_error_mapping_witness :
    ((FetchDocument cfgT dbT (fun _ => false) (gs "uvwxyz") RW.init).w.statusCode
        = 404 ∧
     (FetchRawDocument cfgT dbT (gs "uvwxyz") RW.init).w.statusCode = 404) ∧
    (StaticDocument cfgT dbT colT (gs "uvwxyz") false RW.init).w.statusCode = 404 ∧
    (FetchDocument cfgT dbErrT (fun _ => false) (gs "uvwxyz") RW.init).w.statusCode
        = 500 :=
  ⟨(c2_storage_error_mapping cfgT dbT colT (fun _ => false) (gs "uvwxyz") false
      .noRows).1 (by decide) rfl,
   (c2_storage_error_mapping cfgT dbT colT (fun _ => false) (gs "uvwxyz") false
      .noRows).2 (by decide) rfl,
   (c2_storage_error_mapping cfgT dbErrT colT (fun _ => false) (gs "uvwxyz") false
      (.other (gs "connection refused"))).1 (by decide) rfl |>.1⟩

/-- C3: on the raw route a successfully fetched document is answered
with status 200, Content-Type `text/plain`, and a body that is exactly
the stored content bytes — a single write with no envelope, prefix or
trailing modification. -/
theorem c3_raw_exact_content (cfg : Config) (db : Db) (param : GoStr)
    (doc : Document) (hv : validId cfg param) (hdb : db param = .ok doc) :
    (FetchRawDocument cfg db param RW.init).w.statusCode = 200 ∧
    (FetchRawDocument cfg db param RW.init).w.contentType = gs "text/plain" ∧
    (FetchRawDocument cfg db param RW.init).w.chunks = [Chunk.bytes doc.content] := by
  have hb := (idInvalid_false_iff cfg param).2 hv
  refine ⟨?_, ?_, ?_⟩ <;> simp only [FetchRawDocument, hb, hdb] <;> rfl

/-- Witness for C3: fetching the stored `abcdef` on the raw route gives
200 text/plain with body exactly `hello world`. -/
theorem c3_raw_exact_content_witness :
    (FetchRawDocument cfgT dbT (gs "abcdef") RW.init).w.statusCode = 200 ∧
    (FetchRawDocument cfgT dbT (gs "abcdef") RW.init).w.contentType
        = gs "text/plain" ∧
    (FetchRawDocument cfgT dbT (gs "abcdef") RW.init).w.chunks
        = [Chunk.bytes (gs "hello world")] :=
  c3_raw_exact_content cfgT dbT (gs "abcdef") docT (by decide) rfl

/-- C4: for every payload and status the JSON success writer emits
exactly the envelope with the payload and an empty error string, and
for every message and status the JSON error writer emits exactly the
envelope with an empty object payload and the message — both with
Content-Type `application/json` and the given status, so JSON clients
always receive a well-formed envelope even on failure. -/
theorem c4_json_envelopes (encFails : Json → Bool) (status : Nat)
    (payload : Json) (msg : GoStr) :
    (WriteJSON encFails RW.init status payload).1.chunks
        = [Chunk.jsonVal (Json.obj [(gs "payload", payload),
            (gs "error", Json.str [])])] ∧
    (WriteJSON encFails RW.init status payload).1.contentType
        = gs "application/json" ∧
    (WriteJSON encFails RW.init status payload).1.statusCode = status ∧
    (WriteError RW.init status msg).1.chunks
        = [Chunk.jsonVal (Json.obj [(gs "payload", Json.obj []),
            (gs "error", Json.str msg)])] ∧
    (WriteError RW.init status msg).1.contentType = gs "application/json" ∧
    (WriteError RW.init status msg).1.statusCode = status :=
  ⟨rfl, rfl, rfl, rfl, rfl, rfl⟩

/-- C6: contrary to the claim, a serialization failure in the JSON
success writer is NOT reported to the caller: `WriteJSON` discards the
encoder's error and returns nil for every input, so the
serialization-failure branch of `FetchDocument` is unreachable — even
with an encoder that fails on every value the JSON route answers 200
and never routes a 500 through `WriteError`. -/
theorem c6_writejson_swallows_encode_error :
    (∀ (encFails : Json → Bool) (w : RW) (status : Nat) (p : Json),
        (WriteJSON encFails w status p).2 = none) ∧
    (FetchDocument cfgT dbT (fun _ => true) (gs "abcdef") RW.init).w.statusCode
        = 200 ∧
    (FetchDocument cfgT dbT (fun _ => true) (gs "abcdef") RW.init).w.chunks
        = [Chunk.jsonVal (successEnvelope (docJson docT))] :=
  ⟨fun _ _ _ _ => rfl, rfl, rfl⟩

/-! ## Lemmas about `goSplit`, `firstSegment` and `extensionOf` -/

/-- A split never produces the empty list. -/
theorem goSplit_ne_nil (sep : Char) (s : GoStr) : goSplit sep s ≠ [] := by
  cases s with
  | nil => simp [goSplit]
  | cons c rest =>
    simp only [goSplit]
    cases h : goSplit sep rest with
    | nil => simp
    | cons a t =>
      by_cases hc : c = sep <;> simp [hc]

/-- Splitting a separator-free string returns it whole. -/
theorem goSplit_no_sep (sep : Char) (s : GoStr) (h : sep ∉ s) :
    goSplit sep s = [s] := by
  induction s with
  | nil => rfl
  | cons c rest ih =>
    simp only [List.mem_cons, not_or] at h
    simp only [goSplit]
    rw [ih h.2]
    have hc : ¬ (c = sep) := fun hq => h.1 hq.symm
    simp [hc]

/-- Splitting at the first separator: the part before it becomes the
first segment. -/
theorem goSplit_first (sep : Char) (a b : GoStr) (h : sep ∉ a) :
    goSplit sep (a ++ sep :: b) = a :: goSplit sep b := by
  induction a with
  | nil =>
    simp only [List.nil_append, goSplit]
    cases hg : goSplit sep b with
    | nil => exact absurd hg (goSplit_ne_nil sep b)
    | cons x t => simp
  | cons c rest ih =>
    simp only [List.mem_cons, not_or] at h
    have hc : ¬ (c = sep) := fun hq => h.1 hq.symm
    show (match goSplit sep (rest ++ sep :: b) with
      | [] => [[c]]
      | hd :: t => if c = sep then [] :: hd :: t else (c :: hd) :: t)
        = (c :: rest) :: goSplit sep b
    rw [ih h.2]
    simp [hc]

/-- The identifier used by the HTML route is the text before the first
dot of the URL parameter. -/
theorem firstSegment_before_dot (a b : GoStr) (h : ('.' : Char) ∉ a) :
    firstSegment (a ++ '.' :: b) = a := by
  unfold firstSegment
  rw [goSplit_first '.' a b h]
  rfl

/-- A dot-free parameter is its own first segment. -/
theorem firstSegment_no_dot (p : GoStr) (h : ('.' : Char) ∉ p) :
    firstSegment p = p := by
  unfold firstSegment
  rw [goSplit_no_sep '.' p h]
  rfl

/-- For dot-free `id` and `ext`, the parameter `id.ext` carries the
extension hint `ext`. -/
theorem extensionOf_two_part (id ext : GoStr) (hid : ('.' : Char) ∉ id)
    (hext : ('.' : Char) ∉ ext) :
    extensionOf (id ++ '.' :: ext) = ext := by
  simp only [extensionOf]
  rw [goSplit_first '.' id ext hid, goSplit_no_sep '.' ext hext]
  rfl

/-- A dot-free parameter carries no extension hint. -/
theorem extensionOf_no_dot (p : GoStr) (h : ('.' : Char) ∉ p) :
    extensionOf p = [] := by
  simp only [extensionOf]
  rw [goSplit_no_sep '.' p h]
  rfl

/-- In code mode, after a successful fetch with a parsed template, the
highlighter is called once with the stored content and the extension
hint computed from the URL parameter. -/
theorem staticDocument_highlightCalls (cfg : Config) (db : Db) (col : Collab)
    (p : GoStr) (doc : Document)
    (h : idInvalid cfg (firstSegment p) = false)
    (hdb : db (firstSegment p) = .ok doc) (ht : col.docTpl = .ok ()) :
    (StaticDocument cfg db col p false RW.init).highlightCalls
      = [(doc.content, extensionOf p)] := by
  simp only [StaticDocument, h, hdb, ht]
  cases hhl : col.highlight doc.content (extensionOf p) <;>
    cases col.execOk <;> simp [hhl]

/-- C7 (amended): on the HTML code-mode route the extension hint passed
to the syntax highlighter is the second dot-segment of the requested
parameter when the dot-split has exactly two segments, and the empty
string otherwise; in particular for dot-free `id` and `ext` the
parameter `id.ext` yields hint `ext`, and a dot-free parameter yields
the empty hint. -/
theorem c7_extension_hint (cfg : Config) (db : Db) (col : Collab)
    (param : GoStr) (doc : Document)
    (hv : validId cfg (firstSegment param))
    (hdb : db (firstSegment param) = .ok doc)
    (ht : col.docTpl = .ok ()) :
    (StaticDocument cfg db col param false RW.init).highlightCalls
        = [(doc.content, extensionOf param)] ∧
    (∀ id ext : GoStr, ('.' : Char) ∉ id → ('.' : Char) ∉ ext →
        extensionOf (id ++ '.' :: ext) = ext) ∧
    (∀ p : GoStr, ('.' : Char) ∉ p → extensionOf p = []) :=
  ⟨staticDocument_highlightCalls cfg db col param doc
      ((idInvalid_false_iff cfg (firstSegment param)).2 hv) hdb ht,
    fun id ext hid hext => extensionOf_two_part id ext hid hext,
    fun p hp => extensionOf_no_dot p hp⟩

/-- Witness for C7 (amended): requesting `abcdef.go` passes the stored
content with hint `go` to the highlighter, and the dot-free `abcdef`
yields no hint. -/
theorem c7_extension_hint_witness :
    (StaticDocument cfgT dbT colT (gs "abcdef.go") false RW.init).highlightCalls
        = [(gs "hello world", gs "go")] ∧
    extensionOf (gs "abcdef") = [] :=
  ⟨by
    rw [(c7_extension_hint cfgT dbT colT (gs "abcdef.go") docT (by decide)
      rfl rfl).1]
    rfl,
   (c7_extension_hint cfgT dbT colT (gs "abcdef.go") docT (by decide)
      rfl rfl).2.2 (gs "abcdef") (by decide)⟩

/-- C7 counterexample: the requested identifier `abcdef.tar.gz` is of
the form `id.ext` (as `abcdef` + `tar.gz`, or `abcdef.tar` + `gz`), it
carries a trailing `.<ext>` suffix, the identifier validates and the
document is fetched — yet the hint handed to the highlighter is the
empty string rather than the extension, refuting the claim as stated. -/
theorem c7_extension_hint_counterexample :
    gs "abcdef.tar.gz" = gs "abcdef" ++ '.' :: gs "tar.gz" ∧
    gs "abcdef.tar.gz" = gs "abcdef.tar" ++ '.' :: gs "gz" ∧
    (StaticDocument cfgT dbT colT (gs "abcdef.tar.gz") false RW.init).highlightCalls
        = [(gs "hello world", gs "")] ∧
    gs "" ≠ gs "tar.gz" ∧ gs "" ≠ gs "gz" :=
  ⟨rfl, rfl, rfl, by decide, by decide⟩

/-- C9: the HTML route splits its URL parameter at every dot and uses
only the first segment both for validation (a 400 is decided by that
segment) and for the storage lookup, while the JSON and raw routes pass
the parameter to validation and lookup unchanged; the first segment is
precisely the text before the first dot. -/
theorem c9_first_segment (cfg : Config) (db : Db) (col : Collab)
    (encFails : Json → Bool) (param : GoStr) (reader : Bool) :
    ((StaticDocument cfg db col param reader RW.init).dbCalls
        = if idInvalid cfg (firstSegment param) then []
          else [firstSegment param]) ∧
    (idInvalid cfg (firstSegment param) = true →
        (StaticDocument cfg db col param reader RW.init).w.statusCode = 400) ∧
    ((FetchDocument cfg db encFails param RW.init).dbCalls
        = if idInvalid cfg param then [] else [param]) ∧
    ((FetchRawDocument cfg db param RW.init).dbCalls
        = if idInvalid cfg param then [] else [param]) ∧
    (∀ a b : GoStr, ('.' : Char) ∉ a → firstSegment (a ++ '.' :: b) = a) ∧
    (∀ p : GoStr, ('.' : Char) ∉ p → firstSegment p = p) :=
  ⟨staticDocument_dbCalls cfg db col param reader,
    fun h => staticDocument_invalid_status cfg db col param reader h,
    fetchDocument_dbCalls cfg db encFails param,
    fetchRawDocument_dbCalls cfg db param,
    fun a b ha => firstSegment_before_dot a b ha,
    fun p hp => firstSegment_no_dot p hp⟩

/-- Witness for C9: for the parameter `abcdef.go` the HTML route looks
up `abcdef` while the JSON and raw routes validate the full 9-byte
parameter and reject it without a lookup; and the first segment of
`a.b.c` is `a`. -/
theorem c9_first_segment_witness :
    (StaticDocument cfgT dbT colT (gs "abcdef.go") false RW.init).dbCalls
        = [gs "abcdef"] ∧
    (FetchDocument cfgT dbT (fun _ => false) (gs "abcdef.go") RW.init).dbCalls
        = [] ∧
    (FetchRawDocument cfgT dbT (gs "abcdef.go") RW.init).dbCalls = [] ∧
    firstSegment (gs "a.b.c") = gs "a" := by
  have h := c9_first_segment cfgT dbT colT (fun _ => false) (gs "abcdef.go") false
  exact ⟨by rw [h.1]; rfl, by rw [h.2.2.1]; rfl, by rw [h.2.2.2.1]; rfl,
    h.2.2.2.2.1 (gs "a") (gs "b.c") (by decide)⟩

/-- A key absent from the decoded map yields the empty string. -/
theorem mapGet_no_key (m : List (GoStr × GoStr)) (k : GoStr)
    (h : ∀ p ∈ m, p.1 ≠ k) : mapGet m k = [] := by
  unfold mapGet
  cases hf : m.reverse.find? (fun p => p.1 = k) with
  | none => rfl
  | some p =>
    have hp := List.find?_some hf
    have hm := List.mem_reverse.1 (List.mem_of_find?_eq_some hf)
    exact absurd (by simpa using hp) (h p hm)

/-- C5: a create request with Content-Type primary token
`application/json` is decoded as a flat string-keyed mapping whose
`content` entry becomes the request, a mapping without a `content` key
yields the empty content string with no error, and any Content-Type
other than `application/json` and `multipart/form-data` yields the zero
request with no error. -/
theorem c5_body_decoder (maxSize : Nat) (r : Request) (j : Json)
    (m : List (GoStr × GoStr)) :
    ((goSplit ';' r.contentType).headD [] = gs "application/json" →
        r.jsonBody = some j → decodeStringMap j = .ok m →
        HandleBody maxSize r = (⟨mapGet m (gs "content")⟩, none) ∧
        ((∀ p ∈ m, p.1 ≠ gs "content") →
            HandleBody maxSize r = (⟨[]⟩, none))) ∧
    ((goSplit ';' r.contentType).headD [] ≠ gs "application/json" →
        (goSplit ';' r.contentType).headD [] ≠ gs "multipart/form-data" →
        HandleBody maxSize r = (⟨[]⟩, none)) := by
  constructor
  · intro htok hjson hdec
    rw [List.headD_eq_head?_getD] at htok
    have hmain : HandleBody maxSize r = (⟨mapGet m (gs "content")⟩, none) := by
      simp [HandleBody, htok, hjson, hdec]
    exact ⟨hmain, fun hnone => by rw [hmain, mapGet_no_key m (gs "content") hnone]⟩
  · intro h1 h2
    simp only [HandleBody]
    rw [if_neg h1, if_neg h2]

/-- A fixture JSON create request with body `{"content":"hello"}`. -/
def reqJsonT : Request :=
  ⟨gs "application/json",
   some (Json.obj [(gs "content", Json.str (gs "hello"))]), [], none⟩

/-- A fixture request with an unrecognized content type. -/
def reqOtherT : Request := ⟨gs "text/plain", none, [], none⟩

/-- A fixture JSON create request whose body holds a JSON object with
an empty mapping. -/
def reqEmptyT : Request := ⟨gs "application/json", some (Json.obj []), [], none⟩

/-- Witness for C5: `{"content":"hello"}` decodes to content `hello`,
an empty object decodes to empty content with no error, and a
`text/plain` body yields the zero request with no error. -/
theorem c5_body_decoder_witness :
    HandleBody 10 reqJsonT = (⟨gs "hello"⟩, none) ∧
    HandleBody 10 reqEmptyT = (⟨[]⟩, none) ∧
    HandleBody 10 reqOtherT = (⟨[]⟩, none) := by
  refine ⟨?_, ?_, ?_⟩
  · have h := (c5_body_decoder 10 reqJsonT
        (Json.obj [(gs "content", Json.str (gs "hello"))])
        [(gs "content", gs "hello")]).1 rfl rfl rfl
    rw [h.1]
    rfl
  · exact ((c5_body_decoder 10 reqEmptyT (Json.obj []) []).1 rfl rfl rfl).2
      (by intro p hp; cases hp)
  · exact (c5_body_decoder 10 reqOtherT Json.null []).2 (by decide) (by decide)

/-- Any mapping entry whose value is neither a string nor a JSON null
makes the string-map decode fail with a type mismatch, as Go's decoder
does. -/
theorem decodeFields_error (fields : List (GoStr × Json)) (k : GoStr)
    (v : Json) (hmem : (k, v) ∈ fields) (hv : ∀ s, v ≠ Json.str s)
    (hnull : v ≠ Json.null) :
    decodeFields fields = .error .typeMismatch := by
  induction fields with
  | nil => cases hmem
  | cons p rest ih =>
    rcases p with ⟨k2, v2⟩
    rcases List.mem_cons.1 hmem with heq | hm
    · have hv2 : v2 = v := (congrArg Prod.snd heq).symm
      subst hv2
      cases v2 with
      | str s => exact absurd rfl (hv s)
      | null => exact absurd rfl hnull
      | num n => rfl
      | bool b => rfl
      | arr xs => rfl
      | obj fs => rfl
    · cases v2 with
      | str s =>
        simp only [decodeFields]
        rw [ih hm]
        rfl
      | null =>
        simp only [decodeFields]
        rw [ih hm]
        rfl
      | num n => rfl
      | bool b => rfl
      | arr xs => rfl
      | obj fs => rfl

/-- A mapping all of whose values are strings or JSON nulls decodes
without error. -/
theorem decodeFields_ok (fields : List (GoStr × Json))
    (h : ∀ p ∈ fields, (∃ s, p.2 = Json.str s) ∨ p.2 = Json.null) :
    ∃ m, decodeFields fields = .ok m := by
  induction fields with
  | nil => exact ⟨[], rfl⟩
  | cons p rest ih =>
    obtain ⟨m, hm⟩ := ih (fun q hq => h q (List.mem_cons_of_mem p hq))
    rcases p with ⟨k2, v2⟩
    rcases h (k2, v2) (List.mem_cons_self (k2, v2) rest) with ⟨s, hs⟩ | hnull
    · have hv2 : v2 = Json.str s := hs
      subst hv2
      exact ⟨(k2, s) :: m, by simp only [decodeFields, hm]; rfl⟩
    · have hv2 : v2 = Json.null := hnull
      subst hv2
      exact ⟨(k2, []) :: m, by simp only [decodeFields, hm]; rfl⟩

/-- Whether a JSON value is a string literal. -/
def Json.isStr : Json → Bool
  | .str _ => true
  | _ => false

/-- A fixture JSON create request with the non-string body
`{"content": 5}`. -/
def reqBadT : Request :=
  ⟨gs "application/json", some (Json.obj [(gs "content", Json.num 5)]), [], none⟩

/-- A fixture JSON create request with the body `{"content": null}`. -/
def reqNullT : Request :=
  ⟨gs "application/json", some (Json.obj [(gs "content", Json.null)]), [], none⟩

/-- A fixture JSON create request whose whole body is the JSON literal
`null`. -/
def reqTopNullT : Request :=
  ⟨gs "application/json", some Json.null, [], none⟩

/-- C10 (amended): a JSON create body whose object carries, under any
key, a value that is neither a string nor a JSON null makes the body
decoder fail with a decode error and the zero CreateRequest — values
are never coerced — while a mapping of strings and nulls is accepted
with no error (a null leaves its entry the zero string). -/
theorem c10_strict_string_decode (maxSize : Nat) (r : Request)
    (fields : List (GoStr × Json)) (k : GoStr) (v : Json)
    (htok : (goSplit ';' r.contentType).headD [] = gs "application/json")
    (hbody : r.jsonBody = some (Json.obj fields)) :
    ((k, v) ∈ fields → (∀ s, v ≠ Json.str s) → v ≠ Json.null →
        HandleBody maxSize r = (⟨[]⟩, some (.decode .typeMismatch))) ∧
    ((∀ p ∈ fields, (∃ s, p.2 = Json.str s) ∨ p.2 = Json.null) →
        (HandleBody maxSize r).2 = none) := by
  constructor
  · intro hmem hv hnull
    have hd : decodeStringMap (Json.obj fields) = .error .typeMismatch := by
      simp only [decodeStringMap]
      exact decodeFields_error fields k v hmem hv hnull
    rw [List.headD_eq_head?_getD] at htok
    simp [HandleBody, htok, hbody, hd]
  · intro hall
    obtain ⟨m, hm⟩ := decodeFields_ok fields hall
    have hd : decodeStringMap (Json.obj fields) = .ok m := by
      simp only [decodeStringMap]
      exact hm
    rw [List.headD_eq_head?_getD] at htok
    simp [HandleBody, htok, hbody, hd]

/-- Witness for C10 (amended): `{"content": 5}` is rejected with a
decode error and the zero CreateRequest, while `{"content": null}` is
accepted with no error. -/
theorem c10_strict_string_decode_witness :
    HandleBody 10 reqBadT = (⟨[]⟩, some (.decode .typeMismatch)) ∧
    (HandleBody 10 reqNullT).2 = none :=
  ⟨(c10_strict_string_decode 10 reqBadT [(gs "content", Json.num 5)]
      (gs "content") (Json.num 5) rfl rfl).1 (List.mem_singleton.2 rfl)
      (fun _ h => Json.noConfusion h) (fun h => Json.noConfusion h),
   (c10_strict_string_decode 10 reqNullT [(gs "content", Json.null)]
      (gs "content") Json.null rfl rfl).2 (by
        intro p hp
        rw [List.mem_singleton.1 hp]
        exact Or.inr rfl)⟩

/-- C10 counterexample: `{"content": null}` carries a non-string value
under the key `content`, yet the body decoder returns the zero request
with no error at all — Go's decoder accepts a JSON null for a
`map[string]string` element, storing the zero string — and a body that
is the bare JSON literal `null` is likewise accepted; this refutes the
claim that every non-string value yields a decode error. -/
theorem c10_strict_string_decode_counterexample :
    Json.isStr Json.null = false ∧
    reqNullT.jsonBody = some (Json.obj [(gs "content", Json.null)]) ∧
    HandleBody 10 reqNullT = (⟨[]⟩, none) ∧
    (HandleBody 10 reqNullT).2 ≠ some (BodyErr.decode DecodeErr.typeMismatch) ∧
    HandleBody 10 reqTopNullT = (⟨[]⟩, none) :=
  ⟨rfl, rfl, rfl, by decide, rfl⟩

/-- C8: sign-in field validation succeeds exactly when the username is
non-empty and the password byte length lies in [16, 128]; in particular
a password of length 10 fails and one of length 16 (with a username)
passes. -/
theorem c8_signin_validation (maxSize : Nat) (r : SigninRequest) :
    (ValidateBody maxSize (.signin r) = [] ↔
        (r.username ≠ [] ∧ 16 ≤ r.password.length ∧
          r.password.length ≤ 128)) ∧
    (r.password.length = 10 → ValidateBody maxSize (.signin r) ≠ []) ∧
    (r.username ≠ [] → r.password.length = 16 →
        ValidateBody maxSize (.signin r) = []) := by
  have hmain : ValidateBody maxSize (.signin r) = [] ↔
      (r.username ≠ [] ∧ 16 ≤ r.password.length ∧
        r.password.length ≤ 128) := by
    by_cases h1 : r.username = [] <;> by_cases h2 : r.password = [] <;>
      simp [ValidateBody, fieldErrors, h1, h2]
  refine ⟨hmain, ?_, ?_⟩
  · intro h10 hnil
    obtain ⟨-, hlen, -⟩ := hmain.1 hnil
    omega
  · intro hu h16
    exact hmain.2 ⟨hu, by omega, by omega⟩

/-- Witness for C8: with username `user`, the 10-byte password
`0123456789` fails validation and the 16-byte `0123456789abcdef`
passes. -/
theorem c8_signin_validation_witness :
    ValidateBody 100 (.signin ⟨gs "user", gs "0123456789"⟩) ≠ [] ∧
    ValidateBody 100 (.signin ⟨gs "user", gs "0123456789abcdef"⟩) = [] :=
  ⟨(c8_signin_validation 100 ⟨gs "user", gs "0123456789"⟩).2.1 (by decide),
   (c8_signin_validation 100 ⟨gs "user", gs "0123456789abcdef"⟩).2.2
      (by decide) (by decide)⟩
